import Mathlib

/-
  Verification of the axonion simulation engine (src/nt/neuron.py, src/nt/stim.py,
  src/nt/daq.py and the orchestration loop of src/nt/gui.py) against its
  natural-language specification.

  Python floats are modelled as exact rationals.  The transcendental math.exp is
  modelled as an explicit function parameter (e : Q -> Q); every theorem that needs
  a property of the exponential states it as a hypothesis, and witnesses instantiate
  the parameter with the concrete exponential-like rational function expLike below.
  Randomness (random.gauss, np.random.normal) is modelled as an explicit noise
  argument.
-/

namespace Axonion

/-- Rounding of Python built-in round: round half to even. -/
def pyround (x : ℚ) : ℤ :=
  let f := ⌊x⌋
  let r := x - f
  if r < 1/2 then f
  else if 1/2 < r then f + 1
  else if Even f then f else f + 1

/-- Truncation toward zero, as performed by Python int() on a float. -/
def pytrunc (x : ℚ) : ℤ := if 0 ≤ x then ⌊x⌋ else ⌈x⌉

/-- Python float modulo a % b (for positive b): a - b * floor (a / b). -/
def pymod (a b : ℚ) : ℚ := a - b * ⌊a / b⌋

/-- Concrete strictly monotone, everywhere-positive stand-in for math.exp with
value 1 at 0, used to instantiate the abstract exponential parameter in
witnesses and counterexamples. -/
def expLike (x : ℚ) : ℚ := if 0 ≤ x then 1 + x else 1 / (1 - x)

/-! ## Neuron state machine (src/nt/neuron.py) -/

/-- State of the Neuron class of src/nt/neuron.py. -/
structure Neuron where
  q10 : ℚ
  v : ℚ
  prev_v : ℚ
  m : ℚ
  h : ℚ
  n : ℚ
  w : ℚ
  ATP : ℚ
  mito : ℚ
  Ca : ℚ
  integrity : ℚ
  damage : ℚ
  health : ℚ
  dead : Bool
  flag_atp_low : Bool
  flag_ca_high : Bool
  flag_mito_stress : Bool
  flag_integrity_low : Bool
  flag_damage_high : Bool
  flag_cascade : Bool
deriving DecidableEq

/-- Neuron.reset (neuron.py lines 10-35): restores every field except q10. -/
def Neuron.reset (s : Neuron) : Neuron :=
  { s with
    v := -65, prev_v := -65,
    m := 0.05, h := 0.6, n := 0.32,
    w := 0,
    ATP := 1, mito := 100, Ca := 0,
    integrity := 100, damage := 0, health := 100,
    dead := false,
    flag_atp_low := false, flag_ca_high := false, flag_mito_stress := false,
    flag_integrity_low := false, flag_damage_high := false, flag_cascade := false }

/-- Neuron.__init__ (neuron.py lines 6-8): q10 = 1 then reset. -/
def Neuron.init : Neuron :=
  Neuron.reset
    { q10 := 1, v := 0, prev_v := 0, m := 0, h := 0, n := 0, w := 0,
      ATP := 0, mito := 0, Ca := 0, integrity := 0, damage := 0, health := 0,
      dead := false, flag_atp_low := false, flag_ca_high := false,
      flag_mito_stress := false, flag_integrity_low := false,
      flag_damage_high := false, flag_cascade := false }

/-- Neuron._alpha_m (neuron.py line 40), with e standing for math.exp. -/
def alpha_m (e : ℚ → ℚ) (v : ℚ) : ℚ :=
  if v = -40 then 1 else 0.1 * (v + 40) / (1 - e (-(v + 40) / 10))

/-- Neuron._beta_m (neuron.py line 43). -/
def beta_m (e : ℚ → ℚ) (v : ℚ) : ℚ := 4 * e (-(v + 65) / 18)

/-- Neuron._alpha_h (neuron.py line 46). -/
def alpha_h (e : ℚ → ℚ) (v : ℚ) : ℚ := 0.07 * e (-(v + 65) / 20)

/-- Neuron._beta_h (neuron.py line 49). -/
def beta_h (e : ℚ → ℚ) (v : ℚ) : ℚ := 1 / (1 + e (-(v + 35) / 10))

/-- Neuron._alpha_n (neuron.py line 52). -/
def alpha_n (e : ℚ → ℚ) (v : ℚ) : ℚ :=
  if v = -55 then 0.1 else 0.01 * (v + 55) / (1 - e (-(v + 55) / 10))

/-- Neuron._beta_n (neuron.py line 55). -/
def beta_n (e : ℚ → ℚ) (v : ℚ) : ℚ := 0.125 * e (-(v + 65) / 80)

/-- Neuron.kill (neuron.py lines 59-69). -/
def Neuron.kill (s : Neuron) : Neuron :=
  if s.dead then s
  else
    { s with
      dead := true, v := 0, integrity := 0, damage := 100,
      health := 0, ATP := 0, mito := 0, Ca := 10 }

/-- Gating update for m (neuron.py lines 96 and 100):
semi-implicit Euler with the 0.5 slow-down factor, then clamp to the unit interval. -/
def gating_m (e : ℚ → ℚ) (dt_ms : ℚ) (s : Neuron) : ℚ :=
  max 0 (min 1 (s.m + (alpha_m e s.v * (1 - s.m) - beta_m e s.v * s.m) * dt_ms * 0.5))

/-- Gating update for h (neuron.py lines 97 and 101). -/
def gating_h (e : ℚ → ℚ) (dt_ms : ℚ) (s : Neuron) : ℚ :=
  max 0 (min 1 (s.h + (alpha_h e s.v * (1 - s.h) - beta_h e s.v * s.h) * dt_ms * 0.5))

/-- Gating update for n (neuron.py lines 98 and 102). -/
def gating_n (e : ℚ → ℚ) (dt_ms : ℚ) (s : Neuron) : ℚ :=
  max 0 (min 1 (s.n + (alpha_n e s.v * (1 - s.n) - beta_n e s.v * s.n) * dt_ms * 0.5))

/-- Membrane voltage after the voltage-update stage (neuron.py lines 104-121):
ionic currents with gNa=120, gK=36, gL=0.5, ENa=50, EK=-77, EL=-54.4, Euler
voltage update, then the ATP-gated pump term. -/
def stage5_voltage (e : ℚ → ℚ) (dt_ms i_ext : ℚ) (s : Neuron) : ℚ :=
  let v := s.v
  let m2 := gating_m e dt_ms s
  let h2 := gating_h e dt_ms s
  let n2 := gating_n e dt_ms s
  let INa := 120 * m2 ^ 3 * h2 * (v - 50)
  let IK := 36 * n2 ^ 4 * (v - (-77))
  let IL := 0.5 * (v - (-54.4))
  let v1 := v + (i_ext - INa - IK - IL) * dt_ms
  v1 + (-65 - v1) * (0.004 * s.ATP) * dt_ms

/-- Calcium after spike influx and clearance (neuron.py lines 123-132):
spike detection prev_v < 0 <= v on the stage-5 voltage, influx 0.02 on spike,
clearance at rate 0.05 + 2 ATP, floored at 0. -/
def ca_after (e : ℚ → ℚ) (dt_ms i_ext : ℚ) (s : Neuron) : ℚ :=
  let v2 := stage5_voltage e dt_ms i_ext s
  let ca1 := if s.prev_v < 0 ∧ 0 ≤ v2 then s.Ca + 0.02 else s.Ca
  let ca2 := ca1 - ca1 * (0.05 + 2 * s.ATP) * (dt_ms / 1000)
  if ca2 < 0 then 0 else ca2

/-- ATP after the balance update (neuron.py lines 135-140): production from mito,
pump cost from the injected current, calcium-handling cost, clamped to the unit
interval. -/
def atp_after (e : ℚ → ℚ) (dt_ms i_ext : ℚ) (s : Neuron) : ℚ :=
  max 0 (min 1 (s.ATP +
    (0.008 * (s.mito / 100) - 0.0007 * |i_ext| - 0.006 * ca_after e dt_ms i_ext s)
      * (dt_ms / 1000)))

/-- Mitochondrial capacity after recovery and load/calcium degradation
(neuron.py lines 148-153), clamped to 0..100. -/
def mito_after (e : ℚ → ℚ) (dt_ms i_ext : ℚ) (s : Neuron) : ℚ :=
  max 0 (min 100 (s.mito +
    (0.02 * (100 - s.mito) - max 0 (|i_ext| - 15) * 0.0005
      - max 0 (ca_after e dt_ms i_ext s - 0.3) * 0.1) * (dt_ms / 1000)))

/-- Composite stress score (neuron.py lines 156-161), evaluated on the updated
voltage, calcium, ATP and mito values. -/
def stress_score (e : ℚ → ℚ) (dt_ms i_ext : ℚ) (s : Neuron) : ℚ :=
  |stage5_voltage e dt_ms i_ext s + 65| / 250
    + 1.5 * ca_after e dt_ms i_ext s
    + 1.5 * (1 - atp_after e dt_ms i_ext s)
    + (100 - mito_after e dt_ms i_ext s) / 100

/-- Structural integrity after recovery below stress 0.6 or decay above it
(neuron.py lines 163-168), clamped to 0..100. -/
def integrity_after (e : ℚ → ℚ) (dt_ms i_ext : ℚ) (s : Neuron) : ℚ :=
  let stress := stress_score e dt_ms i_ext s
  max 0 (min 100
    (if stress < 0.6 then s.integrity + 0.1 * (dt_ms / 1000)
     else s.integrity - (stress - 0.6) * (dt_ms / 1000)))

/-- Damage after accrual above stress 1.0 (neuron.py lines 170-173); the clamp to
0..100 is applied unconditionally. -/
def damage_after (e : ℚ → ℚ) (dt_ms i_ext : ℚ) (s : Neuron) : ℚ :=
  let stress := stress_score e dt_ms i_ext s
  max 0 (min 100
    (if 1 < stress then s.damage + (stress - 1) * 0.5 * (dt_ms / 1000) else s.damage))

/-- Health recomputation (neuron.py lines 175-176). -/
def health_after (e : ℚ → ℚ) (dt_ms i_ext : ℚ) (s : Neuron) : ℚ :=
  max 0 (min 100 (integrity_after e dt_ms i_ext s - 0.7 * damage_after e dt_ms i_ext s))

/-- Alive branch of Neuron.step (neuron.py lines 86-184), with the in-place field
mutations of the Python made explicit.  Returns the returned voltage together
with the new state.  The two early returns (ATP at the 0.001 kill threshold,
health at 0) call kill and then record prev_v. -/
def step_alive (e : ℚ → ℚ) (dt_ms i_ext : ℚ) (s : Neuron) : ℚ × Neuron :=
  let v := s.v
  let s1 : Neuron :=
    { s with
      m := gating_m e dt_ms s, h := gating_h e dt_ms s, n := gating_n e dt_ms s,
      v := stage5_voltage e dt_ms i_ext s, Ca := ca_after e dt_ms i_ext s,
      ATP := atp_after e dt_ms i_ext s }
  if atp_after e dt_ms i_ext s ≤ 0.001 then
    let s2 := { s1.kill with prev_v := v }
    (s2.v, s2)
  else
    let s3 : Neuron :=
      { s1 with
        mito := mito_after e dt_ms i_ext s,
        integrity := integrity_after e dt_ms i_ext s,
        damage := damage_after e dt_ms i_ext s,
        health := health_after e dt_ms i_ext s }
    if health_after e dt_ms i_ext s ≤ 0 then
      let s4 := { s3.kill with prev_v := v }
      (s4.v, s4)
    else
      let s5 := { s3 with prev_v := v }
      (s5.v, s5)

/-- Forced-collapse branch of Neuron.step (neuron.py lines 75-80). -/
def step_kill_mode (dt_sec : ℚ) (s : Neuron) : Neuron :=
  let s1 :=
    { s with
      ATP := s.ATP - 5 * dt_sec, Ca := s.Ca + 2 * dt_sec,
      damage := s.damage + 5 * dt_sec }
  if s1.ATP ≤ 0 ∨ 100 ≤ s1.damage ∨ 20 < s1.Ca then s1.kill else s1

/-- Neuron.step (neuron.py lines 71-184).  The noise argument stands for the
Gaussian jitter random.gauss(0, 0.5) consumed in the dead branch. -/
def Neuron.step (e : ℚ → ℚ) (noise dt_ms i_ext : ℚ) (kill_mode : Bool) (s : Neuron) :
    ℚ × Neuron :=
  let dt_sec := dt_ms / 1000
  let s1 := if kill_mode && !s.dead then step_kill_mode dt_sec s else s
  if s1.dead then
    let v1 := s1.v + (0 - s1.v) * dt_sec * 0.2 + noise
    (v1, { s1 with v := v1 })
  else
    step_alive e dt_ms i_ext s1

/-! ## Stimulator (src/nt/stim.py) -/

inductive Mode where
  | OFF | CONSTANT | STEP | PULSE
deriving DecidableEq

/-- State of the Stimulator class of src/nt/stim.py. -/
structure Stimulator where
  mode : Mode
  amplitude : ℚ
  duration : ℚ
  frequency : ℚ
  pulse_width : ℚ
  protocol_start_time : ℚ
  step_active : Bool
  step_start_time : ℚ
  step_duration : ℚ
deriving DecidableEq

/-- Stimulator.__init__ (stim.py lines 4-18). -/
def Stimulator.init : Stimulator :=
  { mode := Mode.OFF, amplitude := 10, duration := 500, frequency := 10,
    pulse_width := 5, protocol_start_time := 0,
    step_active := false, step_start_time := 0, step_duration := 5 }

/-- Stimulator.set_mode (stim.py lines 20-24).  The Python membership test on
MODES always succeeds here because Mode enumerates exactly that list. -/
def Stimulator.set_mode (st : Stimulator) (mode : Mode) (current_time : ℚ) : Stimulator :=
  { st with mode := mode, protocol_start_time := current_time, step_active := false }

/-- Stimulator.trigger_step (stim.py lines 26-28). -/
def Stimulator.trigger_step (st : Stimulator) (current_time : ℚ) : Stimulator :=
  { st with step_active := true, step_start_time := current_time }

/-- Stimulator._step_current (stim.py lines 30-38): returns the current and the
possibly self-deactivated state. -/
def Stimulator.step_current (st : Stimulator) (t : ℚ) : ℚ × Stimulator :=
  if st.step_active = false then (0, st)
  else
    let rel := t - st.step_start_time
    if 0 ≤ rel ∧ rel < st.step_duration then (st.amplitude, st)
    else (0, { st with step_active := false })

/-- Stimulator.current_at (stim.py lines 40-67). -/
def Stimulator.current_at (st : Stimulator) (t : ℚ) : ℚ × Stimulator :=
  match st.mode with
  | Mode.OFF => (0, st)
  | Mode.STEP => st.step_current t
  | Mode.CONSTANT => (st.amplitude, st)
  | Mode.PULSE =>
      let rel_t := t - st.protocol_start_time
      if st.frequency ≤ 0 ∨ rel_t < 0 then (0, st)
      else
        let period := 1000 / st.frequency
        if period ≤ 0 then (0, st)
        else
          let width := min st.pulse_width period
          let phase := pymod rel_t period
          if phase < width then (st.amplitude, st) else (0, st)

/-! ## DAQ quantizer (src/nt/daq.py) -/

/-- State of the DAQ class of src/nt/daq.py. -/
structure DAQ where
  adc_bits : ℕ
  noise_level : ℚ
  voltage_range : ℚ × ℚ
deriving DecidableEq

/-- DAQ.__init__ (daq.py lines 5-8). -/
def DAQ.init : DAQ := { adc_bits := 12, noise_level := 0.5, voltage_range := (-100, 100) }

/-- DAQ.quantize (daq.py lines 10-20): clamp to the voltage range, then round to
the grid of 2 ^ adc_bits steps. -/
def DAQ.quantize (d : DAQ) (val : ℚ) : ℚ :=
  let min_v := d.voltage_range.1
  let max_v := d.voltage_range.2
  let step_size := (max_v - min_v) / (2 ^ d.adc_bits : ℚ)
  let v := max min_v (min val max_v)
  pyround ((v - min_v) / step_size) * step_size + min_v

/-- DAQ.acquire_sample (daq.py lines 22-25), with the Gaussian noise draw
modelled by the explicit noise argument. -/
def DAQ.acquire_sample (d : DAQ) (noise true_voltage : ℚ) : ℚ :=
  d.quantize (true_voltage + noise)

/-! ## Orchestrator tick (src/nt/gui.py) -/

/-- Values of the TIME_SCALES menu (gui.py lines 23-29); together with the
initial 1.0 these are the only reachable time-scale factors. -/
def timeScales : List ℚ := [0.1, 0.5, 1, 5, 20]

/-- Steps-per-tick computation of MainWindow.update_loop (gui.py lines 614-616):
Python int() truncation with a floor of one step when the scale factor is
positive. -/
def steps_to_run (timer_interval dt time_scale_factor : ℚ) : ℤ :=
  let s := pytrunc (timer_interval / dt * time_scale_factor)
  if s = 0 ∧ 0 < time_scale_factor then 1 else s

/-- Engine-relevant state threaded through the orchestration loop. -/
structure SimState where
  time_ms : ℚ
  neuron : Neuron
  stim : Stimulator
deriving DecidableEq

/-- One iteration of the loop body of MainWindow.update_loop (gui.py lines
618-623, plotting omitted): sample the stimulator, step the neuron with
kill_mode false, advance simulated time by dt. -/
def tick_iter (e : ℚ → ℚ) (noise dt : ℚ) (st : SimState) : SimState :=
  let r := st.stim.current_at st.time_ms
  let r2 := st.neuron.step e noise dt r.1 false
  { time_ms := st.time_ms + dt, neuron := r2.2, stim := r.2 }

/-- The loop of MainWindow.update_loop run for a given number of iterations,
with one noise draw per iteration. -/
def run_steps (e : ℚ → ℚ) (noises : ℕ → ℚ) (dt : ℚ) : ℕ → SimState → SimState
  | 0, st => st
  | k + 1, st => run_steps e noises dt k (tick_iter e (noises k) dt st)

/-- MainWindow.update_loop (gui.py lines 610-640, display side effects omitted). -/
def update_loop (e : ℚ → ℚ) (noises : ℕ → ℚ) (timer_interval dt factor : ℚ)
    (st : SimState) : SimState :=
  run_steps e noises dt (steps_to_run timer_interval dt factor).toNat st

/-! ## Reachability and the state invariant -/

/-- Calls of the public neuron surface used by the orchestrator: step with
positive dt (kill_mode false, as in gui.py line 620) and kill. -/
inductive SimCall where
  | step (e : ℚ → ℚ) (noise dt i_ext : ℚ)
  | kill

/-- Apply one call to a neuron state. -/
def applyCall : SimCall → Neuron → Neuron
  | SimCall.step e noise dt i_ext, s => (s.step e noise dt i_ext false).2
  | SimCall.kill, s => s.kill

/-- Apply a list of calls left to right. -/
def applyCalls : List SimCall → Neuron → Neuron
  | [], s => s
  | c :: cs, s => applyCalls cs (applyCall c s)

/-- A call has positive timestep (vacuous for kill). -/
def dtPos : SimCall → Prop
  | SimCall.step _ _ dt _ => 0 < dt
  | SimCall.kill => True

/-- Neuron states reachable from initialization by reset, step (with positive
dt and kill_mode false) and kill. -/
inductive Reachable : Neuron → Prop where
  | init : Reachable Neuron.init
  | reset (s : Neuron) : Reachable s → Reachable s.reset
  | step (s : Neuron) (e : ℚ → ℚ) (noise dt i_ext : ℚ) :
      Reachable s → 0 < dt → Reachable (s.step e noise dt i_ext false).2
  | kill (s : Neuron) : Reachable s → Reachable s.kill

/-- The specification state invariant: gating variables and ATP in the unit
interval, mito, integrity and damage in 0..100, calcium nonnegative. -/
def Inv (s : Neuron) : Prop :=
  0 ≤ s.m ∧ s.m ≤ 1 ∧ 0 ≤ s.h ∧ s.h ≤ 1 ∧ 0 ≤ s.n ∧ s.n ≤ 1 ∧
  0 ≤ s.ATP ∧ s.ATP ≤ 1 ∧ 0 ≤ s.mito ∧ s.mito ≤ 100 ∧
  0 ≤ s.integrity ∧ s.integrity ≤ 100 ∧
  0 ≤ s.damage ∧ s.damage ≤ 100 ∧ 0 ≤ s.Ca

/-- Concrete alive neuron state whose ATP is exactly at the kill threshold,
used for the early-return counterexample and witness. -/
def cexNeuron : Neuron := { Neuron.init with ATP := 0.001 }

/-- Concrete stimulator in PULSE mode with frequency 10, pulse width 5 and
amplitude 20 (the worked example of the specification). -/
def pulseStim : Stimulator := { Stimulator.init with mode := Mode.PULSE, amplitude := 20 }

/-- Concrete stimulator in STEP mode with an armed manual step starting at
time 10. -/
def stepStim : Stimulator :=
  { Stimulator.init with mode := Mode.STEP, step_active := true, step_start_time := 10 }

/-! ## Basic lemmas about the clamping combinators -/

lemma clamp01_nonneg (x : ℚ) : 0 ≤ max 0 (min 1 x) := le_max_left _ _

lemma clamp01_le_one (x : ℚ) : max 0 (min 1 x) ≤ 1 :=
  max_le (by norm_num) (min_le_left _ _)

lemma clamp100_nonneg (x : ℚ) : 0 ≤ max 0 (min 100 x) := le_max_left _ _

lemma clamp100_le (x : ℚ) : max 0 (min 100 x) ≤ 100 :=
  max_le (by norm_num) (min_le_left _ _)

lemma gating_m_mem (e : ℚ → ℚ) (dt : ℚ) (s : Neuron) :
    0 ≤ gating_m e dt s ∧ gating_m e dt s ≤ 1 := by
  unfold gating_m; exact ⟨clamp01_nonneg _, clamp01_le_one _⟩

lemma gating_h_mem (e : ℚ → ℚ) (dt : ℚ) (s : Neuron) :
    0 ≤ gating_h e dt s ∧ gating_h e dt s ≤ 1 := by
  unfold gating_h; exact ⟨clamp01_nonneg _, clamp01_le_one _⟩

lemma gating_n_mem (e : ℚ → ℚ) (dt : ℚ) (s : Neuron) :
    0 ≤ gating_n e dt s ∧ gating_n e dt s ≤ 1 := by
  unfold gating_n; exact ⟨clamp01_nonneg _, clamp01_le_one _⟩

lemma ca_after_nonneg (e : ℚ → ℚ) (dt i : ℚ) (s : Neuron) : 0 ≤ ca_after e dt i s := by
  simp only [ca_after]
  split_ifs with h1 h2 h3
  · exact le_refl 0
  · exact not_lt.mp h2
  · exact le_refl 0
  · exact not_lt.mp h3

lemma atp_after_mem (e : ℚ → ℚ) (dt i : ℚ) (s : Neuron) :
    0 ≤ atp_after e dt i s ∧ atp_after e dt i s ≤ 1 := by
  unfold atp_after; exact ⟨clamp01_nonneg _, clamp01_le_one _⟩

lemma mito_after_mem (e : ℚ → ℚ) (dt i : ℚ) (s : Neuron) :
    0 ≤ mito_after e dt i s ∧ mito_after e dt i s ≤ 100 := by
  unfold mito_after; exact ⟨clamp100_nonneg _, clamp100_le _⟩

lemma integrity_after_mem (e : ℚ → ℚ) (dt i : ℚ) (s : Neuron) :
    0 ≤ integrity_after e dt i s ∧ integrity_after e dt i s ≤ 100 := by
  unfold integrity_after; exact ⟨clamp100_nonneg _, clamp100_le _⟩

lemma damage_after_mem (e : ℚ → ℚ) (dt i : ℚ) (s : Neuron) :
    0 ≤ damage_after e dt i s ∧ damage_after e dt i s ≤ 100 := by
  unfold damage_after; exact ⟨clamp100_nonneg _, clamp100_le _⟩

/-! ## Preservation of the state invariant -/

lemma kill_inv (s : Neuron) (hs : Inv s) : Inv s.kill := by
  unfold Neuron.kill
  split_ifs with hd
  · exact hs
  · obtain ⟨h1, h2, h3, h4, h5, h6, -, -, -, -, -, -, -, -, -⟩ := hs
    exact ⟨h1, h2, h3, h4, h5, h6, by norm_num, by norm_num, by norm_num, by norm_num,
      by norm_num, by norm_num, by norm_num, by norm_num, by norm_num⟩

lemma step_alive_inv (e : ℚ → ℚ) (dt i : ℚ) (s : Neuron) (hd : s.dead = false) :
    Inv (step_alive e dt i s).2 := by
  simp only [step_alive, Neuron.kill, hd, Bool.false_eq_true, if_false]
  split_ifs with hA hH
  · exact ⟨(gating_m_mem e dt s).1, (gating_m_mem e dt s).2, (gating_h_mem e dt s).1,
      (gating_h_mem e dt s).2, (gating_n_mem e dt s).1, (gating_n_mem e dt s).2,
      by norm_num, by norm_num, by norm_num, by norm_num, by norm_num, by norm_num,
      by norm_num, by norm_num, by norm_num⟩
  · exact ⟨(gating_m_mem e dt s).1, (gating_m_mem e dt s).2, (gating_h_mem e dt s).1,
      (gating_h_mem e dt s).2, (gating_n_mem e dt s).1, (gating_n_mem e dt s).2,
      by norm_num, by norm_num, by norm_num, by norm_num, by norm_num, by norm_num,
      by norm_num, by norm_num, by norm_num⟩
  · exact ⟨(gating_m_mem e dt s).1, (gating_m_mem e dt s).2, (gating_h_mem e dt s).1,
      (gating_h_mem e dt s).2, (gating_n_mem e dt s).1, (gating_n_mem e dt s).2,
      (atp_after_mem e dt i s).1, (atp_after_mem e dt i s).2,
      (mito_after_mem e dt i s).1, (mito_after_mem e dt i s).2,
      (integrity_after_mem e dt i s).1, (integrity_after_mem e dt i s).2,
      (damage_after_mem e dt i s).1, (damage_after_mem e dt i s).2,
      ca_after_nonneg e dt i s⟩

lemma step_inv (e : ℚ → ℚ) (noise dt i : ℚ) (s : Neuron) (hs : Inv s) :
    Inv (s.step e noise dt i false).2 := by
  rcases Bool.eq_false_or_eq_true s.dead with hd | hd
  · simpa [Neuron.step, hd] using hs
  · have h := step_alive_inv e dt i s hd
    simpa [Neuron.step, hd] using h

lemma reachable_inv (s : Neuron) (hs : Reachable s) : Inv s := by
  induction hs with
  | init => norm_num [Inv, Neuron.init, Neuron.reset]
  | reset s hr ih => norm_num [Inv, Neuron.reset]
  | step s e noise dt i_ext hr hdt ih => exact step_inv e noise dt i_ext s ih
  | kill s hr ih => exact kill_inv s ih

/-- C1: for every neuron state reachable by reset/step/kill calls and every
step call with positive dt, after the call the gating variables m, h, n and
ATP lie in the unit interval, mito, integrity and damage lie in 0..100, and
Ca is nonnegative. -/
theorem step_preserves_invariants (e : ℚ → ℚ) (noise dt i_ext : ℚ) (s : Neuron)
    (hs : Reachable s) (hdt : 0 < dt) :
    Inv (s.step e noise dt i_ext false).2 :=
  step_inv e noise dt i_ext s (reachable_inv s hs)

theorem step_preserves_invariants_witness :
    0 < (1 : ℚ) ∧ Inv ((Neuron.init.step expLike 0 1 0 false)).2 :=
  ⟨by norm_num,
   step_preserves_invariants expLike 0 1 0 Neuron.init Reachable.init (by norm_num)⟩

/-- C3: kill is idempotent; on a live state it sets v, integrity, health, ATP
and mito to 0, damage to 100, Ca to 10 and dead to true; on a dead state it
changes nothing. -/
theorem kill_idempotent (s : Neuron) :
    s.kill.kill = s.kill ∧
    (s.dead = false → s.kill.v = 0 ∧ s.kill.integrity = 0 ∧ s.kill.damage = 100 ∧
      s.kill.health = 0 ∧ s.kill.ATP = 0 ∧ s.kill.mito = 0 ∧ s.kill.Ca = 10 ∧
      s.kill.dead = true) ∧
    (s.dead = true → s.kill = s) := by
  rcases Bool.eq_false_or_eq_true s.dead with hd | hd <;> simp [Neuron.kill, hd]

theorem kill_idempotent_witness :
    Neuron.init.kill.Ca = 10 ∧ Neuron.init.kill.kill = Neuron.init.kill :=
  ⟨((kill_idempotent Neuron.init).2.1 rfl).2.2.2.2.2.2.1, (kill_idempotent Neuron.init).1⟩

/-! ## The dead state is absorbing -/

lemma applyCall_dead (c : SimCall) (s : Neuron) (hd : s.dead = true) :
    (applyCall c s).dead = true := by
  cases c with
  | step e noise dt i_ext => simp [applyCall, Neuron.step, hd]
  | kill => simp [applyCall, Neuron.kill, hd]

lemma applyCalls_dead (calls : List SimCall) (s : Neuron) (hd : s.dead = true) :
    (applyCalls calls s).dead = true := by
  induction calls generalizing s with
  | nil => exact hd
  | cons c cs ih => exact ih (applyCall c s) (applyCall_dead c s hd)

/-- C4: the dead state is absorbing: a step on a dead state changes only the
voltage field, relaxing it toward 0 at rate 0.2 per second plus the jitter,
and no sequence of step/kill calls ever clears the dead flag. -/
theorem dead_state_absorbing (e : ℚ → ℚ) (noise dt i_ext : ℚ) (km : Bool) (s : Neuron)
    (hd : s.dead = true) :
    (s.step e noise dt i_ext km).2
        = { s with v := s.v + (0 - s.v) * (dt / 1000) * 0.2 + noise } ∧
    (∀ calls : List SimCall, (applyCalls calls s).dead = true) ∧
    s.reset.dead = false := by
  refine ⟨?_, ?_, rfl⟩
  · simp [Neuron.step, hd]
  · intro calls; exact applyCalls_dead calls s hd

theorem dead_state_absorbing_witness :
    (Neuron.init.kill.step expLike 3 2 5 false).2
      = { Neuron.init.kill with
          v := Neuron.init.kill.v + (0 - Neuron.init.kill.v) * (2 / 1000) * 0.2 + 3 } :=
  (dead_state_absorbing expLike 3 2 5 false Neuron.init.kill rfl).1

/-! ## Damage is monotonically non-decreasing -/

lemma damage_le_step (e : ℚ → ℚ) (noise dt i : ℚ) (s : Neuron)
    (h0 : 0 ≤ s.damage) (h1 : s.damage ≤ 100) (hdt : 0 < dt) :
    s.damage ≤ (s.step e noise dt i false).2.damage := by
  rcases Bool.eq_false_or_eq_true s.dead with hd | hd
  · simp [Neuron.step, hd]
  · simp only [Neuron.step, Bool.false_and, Bool.false_eq_true, if_false, hd]
    simp only [step_alive, Neuron.kill, hd, Bool.false_eq_true, if_false]
    split_ifs with hA hH
    · simpa using h1
    · simpa using h1
    · show s.damage ≤ damage_after e dt i s
      unfold damage_after
      have hx : s.damage ≤
          (if 1 < stress_score e dt i s
           then s.damage + (stress_score e dt i s - 1) * 0.5 * (dt / 1000)
           else s.damage) := by
        split_ifs with hstress
        · have h2 : 0 ≤ stress_score e dt i s - 1 := by linarith
          have h3 : 0 ≤ dt / 1000 := by positivity
          have h4 : 0 ≤ (stress_score e dt i s - 1) * 0.5 * (dt / 1000) :=
            mul_nonneg (mul_nonneg h2 (by norm_num)) h3
          linarith
        · exact le_refl _
      exact le_trans (le_min h1 hx) (le_max_right _ _)

lemma damage_le_kill (s : Neuron) (h1 : s.damage ≤ 100) : s.damage ≤ s.kill.damage := by
  unfold Neuron.kill
  split_ifs with hd
  · exact le_refl _
  · simpa using h1

lemma reachable_applyCall (c : SimCall) (s : Neuron) (hs : Reachable s) (hc : dtPos c) :
    Reachable (applyCall c s) := by
  cases c with
  | step e noise dt i_ext => exact Reachable.step s e noise dt i_ext hs hc
  | kill => exact Reachable.kill s hs

/-- C5: along any sequence of step calls with positive dt and kill calls,
starting anywhere reachable and with no intervening reset, the damage field
never decreases. -/
theorem damage_monotone (calls : List SimCall) (s : Neuron) (hs : Reachable s)
    (hc : ∀ c ∈ calls, dtPos c) :
    s.damage ≤ (applyCalls calls s).damage := by
  induction calls generalizing s with
  | nil => exact le_refl _
  | cons c cs ih =>
      obtain ⟨-, -, -, -, -, -, -, -, -, -, -, -, hd0, hd1, -⟩ := reachable_inv s hs
      have hstep : s.damage ≤ (applyCall c s).damage := by
        cases c with
        | step e noise dt i_ext =>
            exact damage_le_step e noise dt i_ext s hd0 hd1 (hc _ (List.mem_cons_self _ _))
        | kill => exact damage_le_kill s hd1
      have hrest := ih (applyCall c s)
        (reachable_applyCall c s hs (hc _ (List.mem_cons_self _ _)))
        (fun c2 hc2 => hc c2 (List.mem_cons_of_mem _ hc2))
      calc s.damage ≤ (applyCall c s).damage := hstep
        _ ≤ _ := by simpa [applyCalls] using hrest

theorem damage_monotone_witness :
    Neuron.init.damage ≤ (applyCalls [SimCall.kill] Neuron.init).damage :=
  damage_monotone [SimCall.kill] Neuron.init Reachable.init
    (by intro c hcm; rw [List.mem_singleton] at hcm; subst hcm; trivial)

/-! ## The ATP early-return path -/

/-- C2 (amended): on a live state, if the ATP update leaves ATP at or below
0.001 the neuron is killed and step returns early; kill zeroes the membrane
voltage, so the call returns 0 (not the stage-5 voltage) and prev_v retains
the pre-step voltage. -/
theorem atp_kill_early_return (e : ℚ → ℚ) (noise dt i_ext : ℚ) (s : Neuron)
    (hd : s.dead = false) (hA : atp_after e dt i_ext s ≤ 0.001) :
    (s.step e noise dt i_ext false).1 = 0 ∧
    (s.step e noise dt i_ext false).2.dead = true ∧
    (s.step e noise dt i_ext false).2.prev_v = s.v := by
  simp [Neuron.step, hd, step_alive, hA, Neuron.kill]

/-- C2 counterexample: a live state at the ATP kill threshold for which the
returned voltage (0, set by kill) differs from the stage-5 membrane voltage,
refuting the claim that the stage-5 voltage is retained as the return value. -/
theorem atp_kill_return_differs_from_stage5 :
    cexNeuron.dead = false ∧
    atp_after expLike 1 100 cexNeuron ≤ 0.001 ∧
    (cexNeuron.step expLike 0 1 100 false).1 ≠ stage5_voltage expLike 1 100 cexNeuron := by
  refine ⟨rfl, ?_, ?_⟩
  · norm_num [cexNeuron, Neuron.init, Neuron.reset, atp_after, ca_after, stage5_voltage,
      gating_m, gating_h, gating_n, alpha_m, beta_m, alpha_h, beta_h, alpha_n, beta_n, expLike]
  · norm_num [Neuron.step, step_alive, Neuron.kill, cexNeuron, Neuron.init, Neuron.reset,
      atp_after, ca_after, stage5_voltage,
      gating_m, gating_h, gating_n, alpha_m, beta_m, alpha_h, beta_h, alpha_n, beta_n, expLike]

/-! ## Pulse waveform -/

lemma pymod_add_right (a b : ℚ) (hb : b ≠ 0) : pymod (a + b) b = pymod a b := by
  unfold pymod
  have h : (a + b) / b = a / b + 1 := by field_simp
  rw [h, Int.floor_add_one]
  push_cast
  ring

lemma current_at_pulse_zero (st : Stimulator) (t : ℚ) (hm : st.mode = Mode.PULSE)
    (h : st.frequency ≤ 0 ∨ t < st.protocol_start_time) : (st.current_at t).1 = 0 := by
  obtain ⟨mo, amp, du, fr, pw, pst, sa, sst, sd⟩ := st
  simp only at hm h
  subst hm
  simp only [Stimulator.current_at]
  rw [if_pos]
  rcases h with h | h
  · exact Or.inl h
  · exact Or.inr (sub_neg.mpr h)

lemma current_at_pulse (st : Stimulator) (t : ℚ) (hm : st.mode = Mode.PULSE)
    (hf : 0 < st.frequency) (ht : st.protocol_start_time ≤ t) :
    (st.current_at t).1 =
      if pymod (t - st.protocol_start_time) (1000 / st.frequency)
          < min st.pulse_width (1000 / st.frequency) then st.amplitude else 0 := by
  obtain ⟨mo, amp, du, fr, pw, pst, sa, sst, sd⟩ := st
  simp only at hm hf ht ⊢
  subst hm
  simp only [Stimulator.current_at]
  rw [if_neg (not_or.mpr ⟨not_le.mpr hf, not_lt.mpr (sub_nonneg.mpr ht)⟩),
    if_neg (not_le.mpr (div_pos (by norm_num) hf))]
  split_ifs <;> rfl

/-- C6: in PULSE mode, current_at returns 0 when the frequency is nonpositive
or t precedes the protocol start; otherwise it is the periodic square wave of
period 1000/frequency with active width min(pulseWidth, period) phased from
protocolStartTime; with frequency 10, pulse width 5 and amplitude 20 the
sample points 0, 6 and 100 past the protocol start give 20, 0 and 20. -/
theorem pulse_waveform (st : Stimulator) (t : ℚ) (hm : st.mode = Mode.PULSE) :
    ((st.frequency ≤ 0 ∨ t < st.protocol_start_time) → (st.current_at t).1 = 0) ∧
    (0 < st.frequency → st.protocol_start_time ≤ t →
      ((st.current_at t).1 =
        (if pymod (t - st.protocol_start_time) (1000 / st.frequency)
            < min st.pulse_width (1000 / st.frequency) then st.amplitude else 0) ∧
       (st.current_at (t + 1000 / st.frequency)).1 = (st.current_at t).1)) ∧
    (st.frequency = 10 → st.pulse_width = 5 → st.amplitude = 20 →
      ((st.current_at st.protocol_start_time).1 = 20 ∧
       (st.current_at (st.protocol_start_time + 6)).1 = 0 ∧
       (st.current_at (st.protocol_start_time + 100)).1 = 20)) := by
  refine ⟨fun h => current_at_pulse_zero st t hm h, fun hf ht => ⟨current_at_pulse st t hm hf ht, ?_⟩,
    fun h10 h5 h20 => ?_⟩
  · have hper : (0 : ℚ) < 1000 / st.frequency := div_pos (by norm_num) hf
    have h1 := current_at_pulse st t hm hf ht
    have h2 := current_at_pulse st (t + 1000 / st.frequency) hm hf (by linarith)
    rw [h1, h2, show t + 1000 / st.frequency - st.protocol_start_time
        = (t - st.protocol_start_time) + 1000 / st.frequency by ring,
      pymod_add_right _ _ (ne_of_gt hper)]
  · have hf : 0 < st.frequency := by rw [h10]; norm_num
    have hc0 := current_at_pulse st st.protocol_start_time hm hf (le_refl _)
    have hc6 := current_at_pulse st (st.protocol_start_time + 6) hm hf (by linarith)
    have hc100 := current_at_pulse st (st.protocol_start_time + 100) hm hf (by linarith)
    refine ⟨?_, ?_, ?_⟩
    · rw [hc0, h10, h5, h20]
      norm_num [pymod]
    · rw [hc6, h10, h5]
      norm_num [pymod]
    · rw [hc100, h10, h5, h20]
      norm_num [pymod]

theorem pulse_waveform_witness :
    (pulseStim.current_at (pulseStim.protocol_start_time + 6)).1 = 0 ∧
    (pulseStim.current_at (pulseStim.protocol_start_time + 100)).1 = 20 :=
  ⟨((pulse_waveform pulseStim 0 rfl).2.2 rfl rfl rfl).2.1,
   ((pulse_waveform pulseStim 0 rfl).2.2 rfl rfl rfl).2.2⟩

/-! ## Totality of the rate functions -/

/-- C7: the rate functions are total: the removable singularities are handled
by the explicit special cases alpha_m(-40) = 1 and alpha_n(-55) = 0.1, and for
any exponential-like e (taking the value 1 only at 0) the denominators of
alpha_m and alpha_n are nonzero away from the singular voltages, so no
evaluation divides by zero. -/
theorem rate_functions_total (e : ℚ → ℚ) (he : ∀ x, e x = 1 → x = 0) :
    alpha_m e (-40) = 1 ∧ alpha_n e (-55) = 0.1 ∧
    (∀ v : ℚ, v ≠ -40 → 1 - e (-(v + 40) / 10) ≠ 0) ∧
    (∀ v : ℚ, v ≠ -55 → 1 - e (-(v + 55) / 10) ≠ 0) := by
  refine ⟨by simp [alpha_m], by simp [alpha_n], ?_, ?_⟩
  · intro v hv hz
    apply hv
    have h1 : e (-(v + 40) / 10) = 1 := by linarith
    have h2 := he _ h1
    have h3 : v + 40 = 0 := by
      field_simp at h2
      linarith
    linarith
  · intro v hv hz
    apply hv
    have h1 : e (-(v + 55) / 10) = 1 := by linarith
    have h2 := he _ h1
    have h3 : v + 55 = 0 := by
      field_simp at h2
      linarith
    linarith

lemma expLike_eq_one (x : ℚ) (hx : expLike x = 1) : x = 0 := by
  unfold expLike at hx
  split_ifs at hx with h
  · linarith
  · have h1 : (0 : ℚ) < 1 - x := by linarith [not_le.mp h]
    field_simp at hx
    linarith

theorem rate_functions_total_witness :
    alpha_m expLike (-40) = 1 ∧ 1 - expLike (-((0 : ℚ) + 40) / 10) ≠ 0 :=
  ⟨(rate_functions_total expLike expLike_eq_one).1,
   (rate_functions_total expLike expLike_eq_one).2.2.1 0 (by norm_num)⟩

/-! ## STEP-mode self-deactivation on early query -/

/-- C10: in STEP mode with an armed manual step, querying current_at at a time
strictly before the step start returns 0 and permanently deactivates the armed
step, so any later query (even inside the original pulse window) returns 0. -/
theorem step_query_before_start_deactivates (st : Stimulator) (t : ℚ)
    (hm : st.mode = Mode.STEP) (ha : st.step_active = true) (ht : t < st.step_start_time) :
    (st.current_at t).1 = 0 ∧ (st.current_at t).2.step_active = false ∧
    ∀ t2 : ℚ, ((st.current_at t).2.current_at t2).1 = 0 := by
  obtain ⟨mo, amp, du, fr, pw, pst, sa, sst, sd⟩ := st
  simp only at hm ha ht
  subst hm; subst ha
  have hrel : ¬(sst ≤ t ∧ t - sst < sd) := fun hcon => absurd hcon.1 (not_le.mpr ht)
  refine ⟨?_, ?_, fun t2 => ?_⟩ <;>
    simp [Stimulator.current_at, Stimulator.step_current, hrel]

theorem step_query_before_start_deactivates_witness :
    (stepStim.current_at 5).1 = 0 ∧ ((stepStim.current_at 5).2.current_at 12).1 = 0 :=
  ⟨(step_query_before_start_deactivates stepStim 5 rfl rfl (by norm_num [stepStim, Stimulator.init])).1,
   (step_query_before_start_deactivates stepStim 5 rfl rfl (by norm_num [stepStim, Stimulator.init])).2.2 12⟩

theorem atp_kill_early_return_witness :
    (cexNeuron.step expLike 0 1 100 false).1 = 0 ∧
    (cexNeuron.step expLike 0 1 100 false).2.dead = true ∧
    (cexNeuron.step expLike 0 1 100 false).2.prev_v = cexNeuron.v :=
  atp_kill_early_return expLike 0 1 100 cexNeuron rfl
    (by norm_num [cexNeuron, Neuron.init, Neuron.reset, atp_after, ca_after, stage5_voltage,
      gating_m, gating_h, gating_n, alpha_m, beta_m, alpha_h, beta_h, alpha_n, beta_n, expLike])

/-! ## Orchestrator tick -/

lemma run_steps_time (e : ℚ → ℚ) (noises : ℕ → ℚ) (dt : ℚ) (k : ℕ) (st : SimState) :
    (run_steps e noises dt k st).time_ms = st.time_ms + k * dt := by
  induction k generalizing st with
  | zero => simp [run_steps]
  | succ k ih =>
      rw [run_steps, ih]
      simp only [tick_iter]
      push_cast
      ring

/-- C8: with the fixed tick interval 20 ms and integration step 0.025 ms of
the orchestrator, for every reachable time-scale factor the number of neuron
updates per tick equals round(tickIntervalMs / dtMs * timeScaleFactor), is at
least 1, and each update advances simulated time by exactly dt, so a tick
advances it by stepsToRun * dt. -/
theorem tick_steps_count (factor : ℚ) (hf : factor ∈ timeScales) :
    steps_to_run 20 0.025 factor = round ((20 : ℚ) / 0.025 * factor) ∧
    1 ≤ steps_to_run 20 0.025 factor ∧
    ∀ (e : ℚ → ℚ) (noises : ℕ → ℚ) (st : SimState),
      (update_loop e noises 20 0.025 factor st).time_ms
        = st.time_ms + ((steps_to_run 20 0.025 factor).toNat : ℚ) * 0.025 := by
  have htime : ∀ (e : ℚ → ℚ) (noises : ℕ → ℚ) (st : SimState),
      (update_loop e noises 20 0.025 factor st).time_ms
        = st.time_ms + ((steps_to_run 20 0.025 factor).toNat : ℚ) * 0.025 := by
    intro e noises st
    unfold update_loop
    exact run_steps_time e noises 0.025 _ st
  have hsplit : factor = 0.1 ∨ factor = 0.5 ∨ factor = 1 ∨ factor = 5 ∨ factor = 20 := by
    simpa [timeScales] using hf
  rcases hsplit with h | h | h | h | h <;> subst h <;>
    exact ⟨by norm_num [steps_to_run, pytrunc, round_eq],
      by norm_num [steps_to_run, pytrunc], htime⟩

theorem tick_steps_count_witness :
    steps_to_run 20 0.025 1 = round ((20 : ℚ) / 0.025 * 1) ∧
    (update_loop expLike (fun _ => 0) 20 0.025 1
        { time_ms := 0, neuron := Neuron.init, stim := Stimulator.init }).time_ms
      = ({ time_ms := 0, neuron := Neuron.init, stim := Stimulator.init } : SimState).time_ms
          + ((steps_to_run 20 0.025 1).toNat : ℚ) * 0.025 :=
  ⟨(tick_steps_count 1 (by simp [timeScales])).1,
   (tick_steps_count 1 (by simp [timeScales])).2.2 expLike (fun _ => 0) _⟩

/-! ## Quantizer range -/

lemma floor_le_pyround (x : ℚ) : ⌊x⌋ ≤ pyround x := by
  simp only [pyround]
  split_ifs <;> omega

lemma pyround_le_ceil (x : ℚ) : pyround x ≤ ⌈x⌉ := by
  simp only [pyround]
  split_ifs with h1 h2 h3
  · exact Int.floor_le_ceil x
  · have hx : (⌊x⌋ : ℚ) < x := by linarith
    have h4 := Int.lt_ceil.mpr hx
    omega
  · exact Int.floor_le_ceil x
  · have hx : (⌊x⌋ : ℚ) < x := by linarith
    have h4 := Int.lt_ceil.mpr hx
    omega

lemma quantize_init_mem (val : ℚ) :
    -100 ≤ DAQ.init.quantize val ∧ DAQ.init.quantize val ≤ 100 := by
  have hv0 : -100 ≤ max (-100 : ℚ) (min val 100) := le_max_left _ _
  have hv1 : max (-100 : ℚ) (min val 100) ≤ 100 := max_le (by norm_num) (min_le_right _ _)
  set v := max (-100 : ℚ) (min val 100) with hv
  set x := (v - -100) / ((100 - -100) / (2 ^ 12 : ℚ)) with hxdef
  have hx0 : 0 ≤ x := by
    rw [hxdef]
    exact div_nonneg (by linarith) (by norm_num)
  have hx1 : x ≤ 4096 := by
    rw [hxdef, div_le_iff₀ (by norm_num)]
    linarith
  have hp0 : (0 : ℤ) ≤ pyround x :=
    le_trans (Int.le_floor.mpr (by exact_mod_cast hx0)) (floor_le_pyround x)
  have hp1 : pyround x ≤ 4096 :=
    le_trans (pyround_le_ceil x) (Int.ceil_le.mpr (by exact_mod_cast hx1))
  have hq0 : (0 : ℚ) ≤ (pyround x : ℚ) := by exact_mod_cast hp0
  have hq1 : (pyround x : ℚ) ≤ 4096 := by exact_mod_cast hp1
  constructor
  · show -100 ≤ (pyround x : ℚ) * ((100 - -100) / (2 ^ 12 : ℚ)) + -100
    nlinarith [hq0]
  · show (pyround x : ℚ) * ((100 - -100) / (2 ^ 12 : ℚ)) + -100 ≤ 100
    nlinarith [hq1]

/-- C9: for every noise draw and input voltage, the acquired sample lies in
the DAQ voltage range -100..100: the noisy value is clamped to the range and
rounded to the 12-bit grid, and the resulting grid point never falls outside
the range. -/
theorem quantize_output_in_range : ∀ noise true_voltage : ℚ,
    -100 ≤ DAQ.init.acquire_sample noise true_voltage ∧
    DAQ.init.acquire_sample noise true_voltage ≤ 100 := by
  intro noise tv
  unfold DAQ.acquire_sample
  exact quantize_init_mem (tv + noise)

end Axonion
